import Mathlib

/-!
Verification of the serial-dashboard core (`src/dashboard.py`): the line
decoder `ESP32Dashboard.handle_line`, the plot ring buffers
(`deque(maxlen=max_points)`), the `SerialWorker` control loop, and
`ESP32Dashboard._send_line_to_serial`.

Text lines are embedded as `List Char`.  Python floats are embedded as
exact rationals extended with infinities and NaN (`PyFloat`): the claims
under study concern which strings convert and which fields end up in a
sample, never rounding, so the exact-value model is faithful for them.
-/

deriving instance DecidableEq for Except

namespace Dashboard

/-- Whitespace characters stripped by Python `str.strip()` (ASCII subset). -/
def isPyWs (c : Char) : Bool :=
  c = ' ' ∨ c = '\t' ∨ c = '\n' ∨ c = '\r' ∨ c = '\x0b' ∨ c = '\x0c'

/-- Model of Python `str.strip()`: drop leading and trailing whitespace. -/
def pyStrip (l : List Char) : List Char :=
  ((l.dropWhile isPyWs).reverse.dropWhile isPyWs).reverse

/-- Model of Python `str.lower()` (ASCII letters, as used by the decoder). -/
def lowerList (l : List Char) : List Char := l.map Char.toLower

/-- Model of Python `str.upper()` (ASCII letters, as used by the decoder). -/
def upperList (l : List Char) : List Char := l.map Char.toUpper

/-- Model of Python `str.split(sep)` for a one-character separator:
`"".split(",") = [""]`, empty fields are kept. -/
def splitOnChar (sep : Char) : List Char → List (List Char)
  | [] => [[]]
  | c :: cs =>
    let r := splitOnChar sep cs
    if c = sep then [] :: r
    else
      match r with
      | [] => [[c]]
      | t :: ts => (c :: t) :: ts

/-- Python float values: finite (exact rational), signed infinity, NaN. -/
inductive PyFloat where
  | fin (q : ℚ)
  | inf (neg : Bool)
  | nan
  deriving DecidableEq, Inhabited

/-- Digit-sequence scanner for Python float literals: consumes
`digit (("_")? digit)*`, returning (value, digit count, rest).  The first
character must be a digit or nothing is consumed. -/
def pyDigits : List Char → ℕ × ℕ × List Char
  | [] => (0, 0, [])
  | c :: cs =>
    if c.isDigit then
      go (c.toNat - 48) 1 cs
    else
      (0, 0, c :: cs)
where
  go (v n : ℕ) : List Char → ℕ × ℕ × List Char
    | [] => (v, n, [])
    | c :: cs =>
      if c.isDigit then go (10 * v + (c.toNat - 48)) (n + 1) cs
      else if c = '_' then
        match cs with
        | d :: cs' =>
          if d.isDigit then go (10 * v + (d.toNat - 48)) (n + 1) cs'
          else (v, n, c :: cs)
        | [] => (v, n, c :: cs)
      else (v, n, c :: cs)

/-- Exact rational value of the decimal `(-1)^neg * m * 10^e`, built with
`mkRat` so it evaluates by kernel reduction. -/
def decimalValue (neg : Bool) (m : ℕ) (e : ℤ) : ℚ :=
  let n : ℤ := if neg then -(m : ℤ) else (m : ℤ)
  if 0 ≤ e then mkRat (n * 10 ^ e.toNat) 1
  else mkRat n (10 ^ (-e).toNat)

/-- Model of Python `float(str)` conversion: optional surrounding
whitespace, optional sign, then `inf`/`infinity`/`nan` (case-insensitive)
or a decimal literal with optional fraction and exponent (underscore
digit separators accepted, as in CPython).  Returns `none` where CPython
raises `ValueError`. -/
def pyFloat? (l : List Char) : Option PyFloat :=
  let l := pyStrip l
  let (neg, l) :=
    match l with
    | '+' :: r => (false, r)
    | '-' :: r => (true, r)
    | r => (false, r)
  if lowerList l = "inf".toList ∨ lowerList l = "infinity".toList then
    some (.inf neg)
  else if lowerList l = "nan".toList then
    some .nan
  else
    let (iv, ic, l1) := pyDigits l
    let (fv, fc, l2) :=
      match l1 with
      | '.' :: r => pyDigits r
      | _ => (0, 0, l1)
    -- a '.' with no digits on either side is invalid
    if ic + fc = 0 then none
    else
      -- value = sign * (iv * 10^fc + fv) * 10^(ex - fc), exactly, as a rational
      let m : ℕ := iv * 10 ^ fc + fv
      match l2 with
      | [] => some (.fin (decimalValue neg m (-(fc : ℤ))))
      | e :: r =>
        if e = 'e' ∨ e = 'E' then
          let (eneg, r) :=
            match r with
            | '+' :: r' => (false, r')
            | '-' :: r' => (true, r')
            | r' => (false, r')
          let (ev, ec, r2) := pyDigits r
          if ec = 0 ∨ r2 ≠ [] then none
          else
            let ex : ℤ := if eneg then -(ev : ℤ) else (ev : ℤ)
            some (.fin (decimalValue neg m (ex - fc)))
        else none

/-- JSON values as produced by `json.loads` for the flat telemetry objects
this program receives: numbers (including the `NaN`/`Infinity` constants
Python's decoder accepts), strings, booleans and `null`.  Nested arrays and
objects are outside the model; the flat-object parser below fails on them. -/
inductive JVal where
  | num (v : PyFloat)
  | str (s : List Char)
  | bool (b : Bool)
  | null
  deriving DecidableEq

/-- JSON insignificant whitespace. -/
def jskipWs (l : List Char) : List Char :=
  l.dropWhile fun c => c = ' ' ∨ c = '\t' ∨ c = '\n' ∨ c = '\r'

/-- JSON string escape characters (`\uXXXX` is outside the model). -/
def jescape (c : Char) : Option Char :=
  if c = '"' ∨ c = '\\' ∨ c = '/' then some c
  else if c = 'n' then some '\n'
  else if c = 't' then some '\t'
  else if c = 'r' then some '\r'
  else if c = 'b' then some (Char.ofNat 8)
  else if c = 'f' then some (Char.ofNat 12)
  else none

/-- Parse the body of a JSON string (the opening quote already consumed),
returning the string contents and the remaining input. -/
def jstringAux : List Char → Option (List Char × List Char)
  | [] => none
  | '"' :: r => some ([], r)
  | '\\' :: c :: r => do
    let e ← jescape c
    let (s, rest) ← jstringAux r
    some (e :: s, rest)
  | c :: r => do
    let (s, rest) ← jstringAux r
    some (c :: s, rest)

/-- Plain digit-run scanner (no underscores — JSON syntax), returning
(value, digit count, rest). -/
def jdigitsAux (v n : ℕ) : List Char → ℕ × ℕ × List Char
  | [] => (v, n, [])
  | c :: cs =>
    if c.isDigit then jdigitsAux (10 * v + (c.toNat - 48)) (n + 1) cs
    else (v, n, c :: cs)

/-- Plain digit-run scanner starting from 0. -/
def jdigits (l : List Char) : ℕ × ℕ × List Char := jdigitsAux 0 0 l

/-- Parse a JSON number (grammar of RFC 8259: optional minus, integer part
without leading zeros, optional fraction with at least one digit, optional
exponent). -/
def jnumber (l : List Char) : Option (PyFloat × List Char) :=
  let (neg, l1) :=
    match l with
    | '-' :: r => (true, r)
    | r => (false, r)
  let (iv, ic, l2) := jdigits l1
  if ic = 0 then none
  else if l1.headD ' ' = '0' ∧ 1 < ic then none
  else
    let (fv, fc, l3) :=
      match l2 with
      | '.' :: r => jdigits r
      | _ => (0, 0, l2)
    -- a '.' must be followed by at least one digit in JSON
    if l2.headD ' ' = '.' ∧ fc = 0 then none
    else
      let m : ℕ := iv * 10 ^ fc + fv
      match l3 with
      | 'e' :: r | 'E' :: r =>
        let (eneg, r1) :=
          match r with
          | '+' :: r' => (false, r')
          | '-' :: r' => (true, r')
          | r' => (false, r')
        let (ev, ec, r2) := jdigits r1
        if ec = 0 then none
        else
          let ex : ℤ := if eneg then -(ev : ℤ) else (ev : ℤ)
          some (.fin (decimalValue neg m (ex - fc)), r2)
      | _ => some (.fin (decimalValue neg m (-(fc : ℤ))), l3)

/-- Parse one JSON value (strings, numbers, literals; Python's `json.loads`
additionally accepts `NaN` and `Infinity`).  Nested containers are outside
the model. -/
def jvalue (l : List Char) : Option (JVal × List Char) :=
  match l with
  | '"' :: r => (jstringAux r).map fun p => (.str p.1, p.2)
  | _ =>
    if List.isPrefixOf "true".toList l then some (.bool true, l.drop 4)
    else if List.isPrefixOf "false".toList l then some (.bool false, l.drop 5)
    else if List.isPrefixOf "null".toList l then some (.null, l.drop 4)
    else if List.isPrefixOf "NaN".toList l then some (.num .nan, l.drop 3)
    else if List.isPrefixOf "Infinity".toList l then some (.num (.inf false), l.drop 8)
    else if List.isPrefixOf "-Infinity".toList l then some (.num (.inf true), l.drop 9)
    else (jnumber l).map fun p => (.num p.1, p.2)

/-- Parse the members of a JSON object after the opening brace (first
member expected next), up to and including the closing brace.  Fueled by
the input length. -/
def jmembersAux : ℕ → List Char → Option (List (List Char × JVal) × List Char)
  | 0, _ => none
  | fuel + 1, l => do
    let l1 ←
      match l with
      | '"' :: r => some r
      | _ => none
    let (k, l2) ← jstringAux l1
    let l3 := jskipWs l2
    let l4 ←
      match l3 with
      | ':' :: r => some r
      | _ => none
    let (v, l5) ← jvalue (jskipWs l4)
    let l6 := jskipWs l5
    match l6 with
    | ',' :: r => do
      let (ms, rest) ← jmembersAux fuel (jskipWs r)
      some ((k, v) :: ms, rest)
    | '}' :: r => some ([(k, v)], r)
    | _ => none

/-- Model of `json.loads` restricted to flat objects (the only shape the
telemetry protocol and the claims exercise): an object whose values are
numbers, strings, booleans or `null`, with arbitrary whitespace.  Returns
the member list in source order; fails (as `json.loads` raises) on
anything else. -/
def json_loads (text : List Char) : Option (List (List Char × JVal)) :=
  match jskipWs text with
  | '{' :: r =>
    match jskipWs r with
    | '}' :: rest => if jskipWs rest = [] then some [] else none
    | r1 =>
      match jmembersAux (r1.length + 1) r1 with
      | some (ms, rest) => if jskipWs rest = [] then some ms else none
      | none => none
  | _ => none

/-- Model of `dict.get` on the dictionary built by `json.loads`: with
duplicate keys the last occurrence wins, a missing key yields `none`
(Python `None`). -/
def dictGet (d : List (List Char × JVal)) (k : List Char) : Option JVal :=
  (d.reverse.find? fun p => p.1 == k).map fun p => p.2

/-- Model of Python `float(x)` applied to `d.get(key)`: numbers pass
through, strings go through `float(str)` conversion, booleans become 0/1;
`None` (missing key or JSON `null`) raises `TypeError`, modelled as
`Except.error`. -/
def pyFloatOfJVal : Option JVal → Except Unit PyFloat
  | some (.num v) => .ok v
  | some (.str s) =>
    match pyFloat? s with
    | some v => .ok v
    | none => .error ()
  | some (.bool b) => .ok (.fin (if b then 1 else 0))
  | some .null => .error ()
  | none => .error ()

/-- Python `str.startswith` for a single-character needle. -/
def startsWithChar (c : Char) : List Char → Bool
  | [] => false
  | d :: _ => d = c

/-- Python `str.endswith` for a single-character needle. -/
def endsWithChar (c : Char) (l : List Char) : Bool :=
  startsWithChar c l.reverse

/-- Branch test of `handle_line`:
`text.startswith(Char.ofNat 123) and text.endswith(Char.ofNat 125)` — the
line looks like a structured (JSON) object. -/
def jsonShape (text : List Char) : Bool :=
  startsWithChar '{' text && endsWithChar '}' text

/-- Model of Python's substring test `pat in s`: `pat` occurs contiguously
in the list. -/
def containsSub (pat : List Char) : List Char → Bool
  | [] => List.isPrefixOf pat []
  | c :: cs => List.isPrefixOf pat (c :: cs) || containsSub pat cs

/-- Branch test of `handle_line`:
`"TEMP:" in text.upper() or "HUM" in text.upper()`. -/
def labeledGuard (text : List Char) : Bool :=
  containsSub "TEMP:".toList (upperList text) ||
    containsSub "HUM".toList (upperList text)

/-- The label-based loop of `handle_line`: for each comma-separated token
containing a colon, split on the first colon, strip and lower-case the
key; keys with prefix `temp` set the temperature, keys with prefix `hum`
set the humidity, other tokens are ignored.  A `float` conversion failure
raises, modelled as `Except.error`, aborting the remaining tokens. -/
def labeledFold :
    List (List Char) → Option PyFloat → Option PyFloat →
      Except Unit (Option PyFloat × Option PyFloat)
  | [], temp, hum => .ok (temp, hum)
  | p :: ps, temp, hum =>
    if ':' ∈ p then
      let k := lowerList (pyStrip (p.takeWhile fun c => c ≠ ':'))
      let v := pyStrip ((p.dropWhile fun c => c ≠ ':').tail)
      if List.isPrefixOf "temp".toList k then
        match pyFloat? v with
        | some x => labeledFold ps (some x) hum
        | none => .error ()
      else if List.isPrefixOf "hum".toList k then
        match pyFloat? v with
        | some y => labeledFold ps temp (some y)
        | none => .error ()
      else labeledFold ps temp hum
    else labeledFold ps temp hum

/-- The body of the `try` block of `ESP32Dashboard.handle_line` (the three
parsing branches).  An `Except.error` models an exception propagating to
the enclosing `except Exception` handler; the `.ok` value is the final
contents of the `temp` and `hum` locals. -/
def decodeBody (text : List Char) : Except Unit (Option PyFloat × Option PyFloat) :=
  if jsonShape text then
    match json_loads text with
    | none => .error ()
    | some d => do
      let t ← pyFloatOfJVal (dictGet d "temp".toList)
      let h ← pyFloatOfJVal (dictGet d "hum".toList)
      .ok (some t, some h)
  else if labeledGuard text then
    labeledFold (splitOnChar ',' (text.filter fun c => c ≠ ' ')) none none
  else
    let parts := splitOnChar ',' text
    if 2 ≤ parts.length then do
      let t ←
        match pyFloat? (parts.getD 0 []) with
        | some x => Except.ok x
        | none => Except.error ()
      let h ←
        match pyFloat? (parts.getD 1 []) with
        | some y => Except.ok y
        | none => Except.error ()
      .ok (some t, some h)
    else .ok (none, none)

/-- A decoded telemetry sample: the temperature and humidity extracted
from one line (`handle_line` adds the wall-clock timestamp separately when
appending to the plot buffers). -/
structure Sample where
  temperature : PyFloat
  humidity : PyFloat
  deriving DecidableEq

/-- The Line Decoder: `ESP32Dashboard.handle_line`'s parsing phase as a
pure function.  Any exception in the body is swallowed by the
`except Exception: return` handler; a sample is produced only when both
fields were set. -/
def decode (text : List Char) : Option Sample :=
  match decodeBody text with
  | .error _ => none
  | .ok (some t, some h) => some ⟨t, h⟩
  | .ok _ => none

namespace SerialWorker

/-- The constructor arguments of `SerialWorker` that drive the control
loop (`port_name`/`baudrate` only parametrize the `serial.Serial` call,
which the environment models). -/
structure Config where
  autoreconnect : Bool
  deriving DecidableEq

/-- The worker's Qt signals (payload strings dropped except for the
received line, which later claims inspect). -/
inductive Event where
  | connected
  | disconnected
  | lineReceived (text : List Char)
  deriving DecidableEq

/-- Outcome of the `try` block of one loop iteration, chosen by the
environment (the physical port): a successful write-drain then a read
returning `line` (`[]` models the empty read `b""` on timeout), a
`serial.SerialException`/`OSError` after `written` successful writes, or
an unexpected exception after `written` successful writes. -/
inductive IoOutcome where
  | ok (line : List Char)
  | ioErr (written : ℕ)
  | otherErr (written : ℕ)
  deriving DecidableEq

/-- The environment's choices for one loop iteration: whether
`serial.Serial(...)` succeeds, the I/O outcome, and whether `stop()` is
called before the next loop-condition check. -/
structure IterEnv where
  openOk : Bool
  io : IoOutcome
  stopAfter : Bool
  deriving DecidableEq

/-- The worker's state: `_running`, whether the loop was left via
`break`, the handle `_ser` (`some b` with `b` its `is_open` flag), the
outbound queue `_outbox`, plus ghost observation traces — payloads passed
to `write` in order, emitted signals in order, `time.sleep` durations in
seconds — and whether any open attempt has succeeded. -/
structure WorkerState where
  running : Bool
  broke : Bool
  ser : Option Bool
  outbox : List (List Char)
  written : List (List Char)
  events : List Event
  sleeps : List ℚ
  everOpened : Bool
  deriving DecidableEq

/-- State after `SerialWorker.__init__`. -/
def initState : WorkerState :=
  { running := true, broke := false, ser := none, outbox := [],
    written := [], events := [], sleeps := [], everOpened := false }

/-- The `while self._running` loop is still executing (not stopped, not
left via `break`). -/
def loopActive (s : WorkerState) : Bool :=
  s.running && !s.broke

/-- The open-attempt step (`if self._ser is None: try: serial.Serial...`).
Returns the new state and whether the iteration proceeds into the I/O
`try` block (`false` models the `continue` after an open failure). -/
def openPhase (e : IterEnv) (s : WorkerState) : WorkerState × Bool :=
  match s.ser with
  | none =>
    if e.openOk then
      ({ s with ser := some true, everOpened := true,
                events := s.events ++ [Event.connected],
                sleeps := s.sleeps ++ [mkRat 1 5] }, true)
    else
      ({ s with events := s.events ++ [Event.disconnected],
                sleeps := s.sleeps ++ [1] }, false)
  | some _ => (s, true)

/-- The I/O `try` block of one iteration: drain `_outbox` in FIFO order,
then one read.  On `SerialException`/`OSError`: emit `disconnected`,
close and discard the handle, `break` if not `autoreconnect`, else back
off 0.5s.  On an unexpected exception: emit `disconnected`, back off
0.2s, keep the handle.  A write error after `w` successful writes loses
the payload being written (it was already popped). -/
def ioPhase (cfg : Config) (io : IoOutcome) (s : WorkerState) : WorkerState :=
  match io with
  | .ok line =>
    let s := { s with written := s.written ++ s.outbox, outbox := [] }
    if line ≠ [] then
      let text := pyStrip line
      if text ≠ [] then { s with events := s.events ++ [Event.lineReceived text] }
      else s
    else { s with sleeps := s.sleeps ++ [mkRat 1 50] }
  | .ioErr k =>
    let w := min k s.outbox.length
    let lost := if w < s.outbox.length then 1 else 0
    let s := { s with written := s.written ++ s.outbox.take w,
                      outbox := s.outbox.drop (w + lost),
                      events := s.events ++ [Event.disconnected],
                      ser := none }
    if cfg.autoreconnect then { s with sleeps := s.sleeps ++ [mkRat 1 2] }
    else { s with broke := true }
  | .otherErr k =>
    let w := min k s.outbox.length
    let lost := if w < s.outbox.length then 1 else 0
    { s with written := s.written ++ s.outbox.take w,
             outbox := s.outbox.drop (w + lost),
             events := s.events ++ [Event.disconnected],
             sleeps := s.sleeps ++ [mkRat 1 5] }

/-- One full iteration of the `while self._running` loop body, with a
possible cooperative `stop()` arriving before the next condition check. -/
def stepIter (cfg : Config) (e : IterEnv) (s : WorkerState) : WorkerState :=
  let p := openPhase e s
  let s2 := if p.2 then ioPhase cfg e.io p.1 else p.1
  if e.stopAfter then { s2 with running := false } else s2

/-- The cleanup block after the loop
(`if self._ser and self._ser.is_open: self._ser.close()`). -/
def cleanup (s : WorkerState) : WorkerState :=
  match s.ser with
  | some true => { s with ser := some false }
  | _ => s

/-- `SerialWorker.run`: iterate the loop body while the loop is active,
consuming one environment choice per iteration; when the loop exits, run
the cleanup block.  `none` means the supplied environment trace ended
before the loop exited (the loop is still running). -/
def run (cfg : Config) (envs : List IterEnv) (s : WorkerState) : Option WorkerState :=
  if loopActive s then
    match envs with
    | [] => none
    | e :: rest => run cfg rest (stepIter cfg e s)
  else some (cleanup s)

/-- `SerialWorker.send`: append the payload to `_outbox` (non-blocking). -/
def send (s : WorkerState) (data : List Char) : WorkerState :=
  { s with outbox := s.outbox ++ [data] }

/-- `SerialWorker.stop`: set the stop flag. -/
def stop (s : WorkerState) : WorkerState :=
  { s with running := false }

/-- `QThread.isRunning` for the worker: the `run` method has not yet
returned, i.e. the loop is still active. -/
def isRunning (s : WorkerState) : Bool :=
  loopActive s

end SerialWorker

/-- `ESP32Dashboard._send_line_to_serial`: if a worker thread exists and
is running, encode and enqueue the line and log `"> <line>"`; otherwise
log `"! Not connected"`. -/
def send_line_to_serial (thread : Option SerialWorker.WorkerState)
    (log : List (List Char)) (line : List Char) :
    Option SerialWorker.WorkerState × List (List Char) :=
  match thread with
  | some s =>
    if SerialWorker.isRunning s then
      (some (SerialWorker.send s line), log ++ ['>' :: ' ' :: pyStrip line])
    else (some s, log ++ ["! Not connected".toList])
  | none => (none, log ++ ["! Not connected".toList])

/-- The plot-buffer capacity `self.max_points`. -/
def max_points : ℕ := 500

/-- One append to a `deque(maxlen = n)`: the new element goes to the
right, and the leftmost element is discarded when the deque is full. -/
def dequePush (n : ℕ) (l : List α) (x : α) : List α :=
  let l' := l ++ [x]
  l'.drop (l'.length - n)

/-- Pushing a whole sequence into a `deque(maxlen = n)`. -/
def dequePushAll (n : ℕ) (init : List α) (xs : List α) : List α :=
  xs.foldl (dequePush n) init

/-- A key or value token of a labeled telemetry line in canonical form: no
separator characters (comma, colon) and no whitespace. -/
def tokenOk (l : List Char) : Prop :=
  ',' ∉ l ∧ ':' ∉ l ∧ ∀ c ∈ l, isPyWs c = false

instance : DecidablePred tokenOk := fun l => by
  unfold tokenOk; infer_instance

/-! Helper lemmas about the string primitives. -/

theorem dropWhile_eq_self_of_all {p : Char → Bool} {l : List Char}
    (h : ∀ c ∈ l, p c = false) : l.dropWhile p = l := by
  cases l with
  | nil => rfl
  | cons c cs => simp [List.dropWhile, h c (by simp)]

theorem pyStrip_eq_self {l : List Char} (h : ∀ c ∈ l, isPyWs c = false) :
    pyStrip l = l := by
  unfold pyStrip
  rw [dropWhile_eq_self_of_all h, dropWhile_eq_self_of_all, List.reverse_reverse]
  intro c hc
  exact h c (List.mem_reverse.mp hc)

theorem splitOnChar_eq_single {sep : Char} {l : List Char} (h : sep ∉ l) :
    splitOnChar sep l = [l] := by
  induction l with
  | nil => rfl
  | cons c cs ih =>
    have hc : ¬ c = sep := fun hcs => h (hcs ▸ List.mem_cons_self c cs)
    have hcs : sep ∉ cs := fun hm => h (List.mem_cons_of_mem c hm)
    simp [splitOnChar, hc, ih hcs]

theorem splitOnChar_append {sep : Char} {a b : List Char} (h : sep ∉ a) :
    splitOnChar sep (a ++ sep :: b) = a :: splitOnChar sep b := by
  induction a with
  | nil => simp [splitOnChar]
  | cons c cs ih =>
    have hc : ¬ c = sep := fun hcs => h (hcs ▸ List.mem_cons_self c cs)
    have hcs : sep ∉ cs := fun hm => h (List.mem_cons_of_mem c hm)
    simp [splitOnChar, hc, ih hcs]

theorem takeWhile_until_sep {sep : Char} {k v : List Char} (h : sep ∉ k) :
    (k ++ sep :: v).takeWhile (fun c => c ≠ sep) = k := by
  induction k with
  | nil => simp [List.takeWhile]
  | cons c cs ih =>
    have hc : ¬ c = sep := fun hcs => h (hcs ▸ List.mem_cons_self c cs)
    have hcs : sep ∉ cs := fun hm => h (List.mem_cons_of_mem c hm)
    simp only [List.cons_append, List.takeWhile]
    simp [hc]
    simpa using ih hcs

theorem dropWhile_until_sep {sep : Char} {k v : List Char} (h : sep ∉ k) :
    (k ++ sep :: v).dropWhile (fun c => c ≠ sep) = sep :: v := by
  induction k with
  | nil => simp [List.dropWhile]
  | cons c cs ih =>
    have hc : ¬ c = sep := fun hcs => h (hcs ▸ List.mem_cons_self c cs)
    have hcs : sep ∉ cs := fun hm => h (List.mem_cons_of_mem c hm)
    simp only [List.cons_append, List.dropWhile]
    simp [hc]
    simpa using ih hcs

theorem isPrefixOf_hum_not_temp {l : List Char}
    (h : List.isPrefixOf "hum".toList l = true) :
    List.isPrefixOf "temp".toList l = false := by
  cases l with
  | nil => simp [List.isPrefixOf] at h
  | cons c cs =>
    have hc : 'h' = c := by
      simpa [List.isPrefixOf] using And.left (by simpa [List.isPrefixOf] using h)
    subst hc
    simp [List.isPrefixOf]

/-! Ring-buffer lemmas. -/

theorem dequePush_length_le (n : ℕ) (l : List α) (x : α) :
    (dequePush n l x).length ≤ n := by
  simp only [dequePush, List.length_drop, List.length_append, List.length_cons]
  omega

theorem dequePushAll_eq_drop (n : ℕ) (xs : List α) :
    ∀ init : List α, init.length ≤ n →
      dequePushAll n init xs = (init ++ xs).drop ((init ++ xs).length - n) := by
  induction xs with
  | nil =>
    intro init h
    simp only [dequePushAll, List.foldl_nil, List.append_nil]
    rw [show init.length - n = 0 by omega, List.drop_zero]
  | cons y ys ih =>
    intro init h
    have hstep : dequePushAll n init (y :: ys) = dequePushAll n (dequePush n init y) ys := rfl
    rw [hstep, ih _ (dequePush_length_le n init y)]
    have e2 : dequePush n init y = (init ++ [y]).drop (init.length + 1 - n) := by
      simp [dequePush]
    have hk : init.length + 1 - n ≤ (init ++ [y]).length := by
      simp
    have e3 : (init ++ [y]).drop (init.length + 1 - n) ++ ys
        = ((init ++ [y]) ++ ys).drop (init.length + 1 - n) :=
      (List.drop_append_of_le_length hk).symm
    rw [e2, e3, List.drop_drop]
    have e4 : (init ++ [y]) ++ ys = init ++ y :: ys := by simp
    rw [e4]
    congr 1
    simp only [List.length_drop, List.length_append, List.length_cons, List.length_nil]
    omega

/-- Claim C8: a `deque(maxlen = n)` ring buffer, after pushing more than
`n` elements, holds exactly the last `n` pushed elements in push order,
and at no intermediate point does it hold more than `n` elements. -/
theorem ringbuffer_last_n (n : ℕ) (xs : List α) (h : n < xs.length) :
    (dequePushAll n [] xs).length = n ∧
    dequePushAll n [] xs = xs.drop (xs.length - n) ∧
    (∀ p, p <+: xs → (dequePushAll n [] p).length ≤ n) := by
  have hmain : ∀ ys : List α, dequePushAll n [] ys = ys.drop (ys.length - n) := by
    intro ys
    have h0 := dequePushAll_eq_drop n ys [] (by simp)
    simpa using h0
  refine ⟨?_, hmain xs, ?_⟩
  · rw [hmain xs, List.length_drop]
    omega
  · intro p _
    rw [hmain p, List.length_drop]
    omega

/-- Claim C8 witness: capacity 2, pushing [1, 2, 3] leaves [2, 3]. -/
theorem ringbuffer_last_n_witness :
    2 < ([(1 : ℚ), 2, 3]).length ∧
    ((dequePushAll 2 [] [(1 : ℚ), 2, 3]).length = 2 ∧
      dequePushAll 2 [] [(1 : ℚ), 2, 3] = ([(1 : ℚ), 2, 3]).drop (([(1 : ℚ), 2, 3]).length - 2) ∧
      (∀ p, p <+: [(1 : ℚ), 2, 3] → (dequePushAll 2 [] p).length ≤ 2)) :=
  ⟨by decide, ringbuffer_last_n 2 [(1 : ℚ), 2, 3] (by decide)⟩

/-! Control-loop theorems. -/

namespace SerialWorker

theorem cleanup_not_open (s : WorkerState) : (cleanup s).ser ≠ some true := by
  unfold cleanup
  rcases hs : s.ser with _ | b
  · simp [hs]
  · cases b <;> simp [hs]

/-- Claim C9: whenever `SerialWorker.run` returns — on a stop request, on
the `break` after an I/O failure with `autoreconnect` off, or after error
iterations — the final cleanup block has closed the physical handle: the
returned state never holds an open handle. -/
theorem run_closes_handle_on_exit (cfg : Config) (envs : List IterEnv)
    (s s' : WorkerState) (h : run cfg envs s = some s') : s'.ser ≠ some true := by
  induction envs generalizing s with
  | nil =>
    unfold run at h
    by_cases hl : loopActive s = true
    · simp [hl] at h
    · simp [hl] at h
      exact h ▸ cleanup_not_open s
  | cons e rest ih =>
    unfold run at h
    by_cases hl : loopActive s = true
    · simp [hl] at h
      exact ih _ h
    · simp [hl] at h
      exact h ▸ cleanup_not_open s

/-- Claim C9 witness: a run that connects, reads nothing and is stopped
returns with the handle closed. -/
theorem run_closes_handle_on_exit_witness :
    run ⟨true⟩ [⟨true, IoOutcome.ok [], true⟩] initState =
      some { running := false, broke := false, ser := some false, outbox := [],
             written := [], events := [Event.connected],
             sleeps := [mkRat 1 5, mkRat 1 50], everOpened := true } ∧
    ({ running := false, broke := false, ser := some false, outbox := [],
       written := [], events := [Event.connected],
       sleeps := [mkRat 1 5, mkRat 1 50], everOpened := true } : WorkerState).ser
      ≠ some true :=
  ⟨by decide, run_closes_handle_on_exit ⟨true⟩ [⟨true, IoOutcome.ok [], true⟩]
    initState _ (by decide)⟩

/-- Claim C1 counterexample: with `autoreconnect = false`, a failed open
does NOT exit the loop.  Two iterations whose open attempts both fail
leave the loop still active with two `disconnected` emissions — the loop
retried the open — and `run` on that trace has not terminated. -/
theorem open_fail_no_reconnect_retries :
    run ⟨false⟩ [⟨false, IoOutcome.ok [], false⟩, ⟨false, IoOutcome.ok [], false⟩]
      initState = none ∧
    (stepIter ⟨false⟩ ⟨false, IoOutcome.ok [], false⟩
        (stepIter ⟨false⟩ ⟨false, IoOutcome.ok [], false⟩ initState)).events
      = [Event.disconnected, Event.disconnected] ∧
    loopActive (stepIter ⟨false⟩ ⟨false, IoOutcome.ok [], false⟩
        (stepIter ⟨false⟩ ⟨false, IoOutcome.ok [], false⟩ initState)) = true := by
  decide

/-- Claim C1 (amended): in an iteration with no open handle whose open
attempt fails, the worker emits one `disconnected`, sleeps the 1s backoff,
and leaves every other component of the state unchanged — so the loop
retries from the top regardless of `autoreconnect`; `autoreconnect` is
consulted only on mid-session I/O errors. -/
theorem open_fail_backoff_and_retry (cfg : Config) (e : IterEnv) (s : WorkerState)
    (hser : s.ser = none) (hopen : e.openOk = false) (hstop : e.stopAfter = false) :
    stepIter cfg e s
      = { s with events := s.events ++ [Event.disconnected],
                 sleeps := s.sleeps ++ [1] } := by
  unfold stepIter openPhase
  rw [hser, hopen, hstop]
  simp

/-- Claim C1 (amended) witness. -/
theorem open_fail_backoff_and_retry_witness :
    initState.ser = none ∧
    stepIter ⟨false⟩ ⟨false, IoOutcome.ok [], false⟩ initState
      = { initState with events := initState.events ++ [Event.disconnected],
                         sleeps := initState.sleeps ++ [1] } :=
  ⟨by decide, open_fail_backoff_and_retry ⟨false⟩ ⟨false, IoOutcome.ok [], false⟩
    initState rfl rfl rfl⟩

/-- Claim C2: a `SerialException`/`OSError` in an iteration with an open
handle emits exactly one `disconnected`, discards the handle, and then —
if `autoreconnect` — backs off 0.5s with the loop still running, else
leaves the loop via `break`. -/
theorem io_error_backoff_or_terminate (cfg : Config) (e : IterEnv)
    (s : WorkerState) (k : ℕ)
    (hser : s.ser = some true) (hio : e.io = IoOutcome.ioErr k)
    (hstop : e.stopAfter = false) (hbroke : s.broke = false) :
    (stepIter cfg e s).events = s.events ++ [Event.disconnected] ∧
    (stepIter cfg e s).ser = none ∧
    (cfg.autoreconnect = true →
      (stepIter cfg e s).broke = false ∧
      (stepIter cfg e s).running = s.running ∧
      (stepIter cfg e s).sleeps = s.sleeps ++ [mkRat 1 2]) ∧
    (cfg.autoreconnect = false → (stepIter cfg e s).broke = true) := by
  unfold stepIter openPhase ioPhase
  rw [hser, hio, hstop]
  by_cases ha : cfg.autoreconnect = true <;> simp [ha, hbroke]

/-- Claim C2 witness: a connected worker hit by an I/O error, with and
without `autoreconnect`. -/
theorem io_error_backoff_or_terminate_witness :
    (stepIter ⟨true⟩ ⟨true, IoOutcome.ioErr 0, false⟩
        (stepIter ⟨true⟩ ⟨true, IoOutcome.ok [], false⟩ initState)).ser = none ∧
    (stepIter ⟨true⟩ ⟨true, IoOutcome.ioErr 0, false⟩
        (stepIter ⟨true⟩ ⟨true, IoOutcome.ok [], false⟩ initState)).broke = false ∧
    (stepIter ⟨false⟩ ⟨true, IoOutcome.ioErr 0, false⟩
        (stepIter ⟨false⟩ ⟨true, IoOutcome.ok [], false⟩ initState)).broke = true := by
  refine ⟨?_, ?_, ?_⟩
  · exact (io_error_backoff_or_terminate ⟨true⟩ ⟨true, IoOutcome.ioErr 0, false⟩
      _ 0 (by decide) rfl rfl (by decide)).2.1
  · exact ((io_error_backoff_or_terminate ⟨true⟩ ⟨true, IoOutcome.ioErr 0, false⟩
      _ 0 (by decide) rfl rfl (by decide)).2.2.1 rfl).1
  · exact (io_error_backoff_or_terminate ⟨false⟩ ⟨true, IoOutcome.ioErr 0, false⟩
      _ 0 (by decide) rfl rfl (by decide)).2.2.2 rfl

end SerialWorker

/-- Claim C3 counterexample: a running worker whose every open attempt has
failed (never successfully opened) still enqueues the payload and logs it —
`_send_line_to_serial` is gated on the thread running, not on a successful
open, so the claimed "not connected" no-op does not happen here. -/
theorem send_line_not_gated_on_ever_opened :
    (SerialWorker.stepIter ⟨true⟩ ⟨false, SerialWorker.IoOutcome.ok [], false⟩
        SerialWorker.initState).everOpened = false ∧
    SerialWorker.isRunning
      (SerialWorker.stepIter ⟨true⟩ ⟨false, SerialWorker.IoOutcome.ok [], false⟩
        SerialWorker.initState) = true ∧
    send_line_to_serial
      (some (SerialWorker.stepIter ⟨true⟩ ⟨false, SerialWorker.IoOutcome.ok [], false⟩
        SerialWorker.initState)) [] "READ\n".toList
      = (some { SerialWorker.stepIter ⟨true⟩ ⟨false, SerialWorker.IoOutcome.ok [], false⟩
                  SerialWorker.initState with outbox := ["READ\n".toList] },
         ["> READ".toList]) := by
  decide

/-- Claim C3 (amended): `enqueue_send` is non-blocking and appends to the
outbound queue whenever the worker thread is running; it is a no-op that
logs "! Not connected" exactly when there is no running worker (never
started or already terminated).  Payloads queued while the connection is
faulted are retained (an open-failure iteration leaves the queue intact)
and are flushed in FIFO order by the first healthy iteration after a
reconnect. -/
theorem enqueue_send_spec :
    (∀ s log line, SerialWorker.isRunning s = false →
      send_line_to_serial (some s) log line
        = (some s, log ++ ["! Not connected".toList])) ∧
    (∀ log line, send_line_to_serial none log line
        = (none, log ++ ["! Not connected".toList])) ∧
    (∀ s log line, SerialWorker.isRunning s = true →
      send_line_to_serial (some s) log line
        = (some { s with outbox := s.outbox ++ [line] },
           log ++ ['>' :: ' ' :: pyStrip line])) ∧
    (∀ (cfg : SerialWorker.Config) (e : SerialWorker.IterEnv) s,
      s.ser = none → e.openOk = false → e.stopAfter = false →
      (SerialWorker.stepIter cfg e s).outbox = s.outbox) ∧
    (∀ (cfg : SerialWorker.Config) (e : SerialWorker.IterEnv) s line,
      s.ser = none → e.openOk = true → e.io = SerialWorker.IoOutcome.ok line →
      (SerialWorker.stepIter cfg e s).outbox = [] ∧
      (SerialWorker.stepIter cfg e s).written = s.written ++ s.outbox) := by
  refine ⟨?_, ?_, ?_, ?_, ?_⟩
  · intro s log line h
    simp [send_line_to_serial, h]
  · intro log line
    simp [send_line_to_serial]
  · intro s log line h
    simp [send_line_to_serial, h, SerialWorker.send]
  · intro cfg e s h1 h2 h3
    unfold SerialWorker.stepIter SerialWorker.openPhase
    rw [h1, h2, h3]
    simp
  · intro cfg e s line h1 h2 h3
    unfold SerialWorker.stepIter SerialWorker.openPhase SerialWorker.ioPhase
    rw [h1, h2, h3]
    by_cases hl : line = [] <;> by_cases hs : pyStrip line = [] <;>
      by_cases ht : e.stopAfter = true <;> simp [hl, hs, ht]

/-- Claim C3 (amended) witness: a stopped worker rejects with
"! Not connected"; a running worker appends to the queue. -/
theorem enqueue_send_spec_witness :
    SerialWorker.isRunning (SerialWorker.stop SerialWorker.initState) = false ∧
    send_line_to_serial (some (SerialWorker.stop SerialWorker.initState)) []
        "READ\n".toList
      = (some (SerialWorker.stop SerialWorker.initState),
         [] ++ ["! Not connected".toList]) ∧
    SerialWorker.isRunning SerialWorker.initState = true ∧
    send_line_to_serial (some SerialWorker.initState) [] "READ\n".toList
      = (some { SerialWorker.initState with
                  outbox := SerialWorker.initState.outbox ++ ["READ\n".toList] },
         [] ++ ['>' :: ' ' :: pyStrip "READ\n".toList]) :=
  ⟨by decide,
   enqueue_send_spec.1 (SerialWorker.stop SerialWorker.initState) [] _ (by decide),
   by decide,
   enqueue_send_spec.2.2.1 SerialWorker.initState [] _ (by decide)⟩

/-- Claim C7: the decoder is total — every input yields `none` or a
sample — and any exception raised inside the parsing body (modelled by
`decodeBody` returning an error) is swallowed into `none`, never
propagated. -/
theorem decode_total :
    (∀ l, decode l = none ∨ ∃ t h, decode l = some ⟨t, h⟩) ∧
    (∀ l, decodeBody l = .error () → decode l = none) := by
  constructor
  · intro l
    unfold decode
    rcases hb : decodeBody l with e | p
    · exact Or.inl rfl
    · rcases p with ⟨_ | t, _ | h⟩
      · exact Or.inl rfl
      · exact Or.inl rfl
      · exact Or.inl rfl
      · exact Or.inr ⟨_, _, rfl⟩
  · intro l h
    unfold decode
    rw [h]

/-- Claim C7 witness: a malformed CSV line raises inside the body and
decodes to `none`. -/
theorem decode_total_witness :
    decodeBody "abc,def".toList = .error () ∧ decode "abc,def".toList = none :=
  ⟨by decide, decode_total.2 "abc,def".toList (by decide)⟩

/-! Labeled-line lemmas. -/

theorem labeledFold_cons_eval (k v : List Char) (ps : List (List Char))
    (t h : Option PyFloat)
    (hk : ':' ∉ k) (hknw : ∀ c ∈ k, isPyWs c = false)
    (hvnw : ∀ c ∈ v, isPyWs c = false) :
    labeledFold ((k ++ ':' :: v) :: ps) t h =
      (if List.isPrefixOf "temp".toList (lowerList k) then
        match pyFloat? v with
        | some x => labeledFold ps (some x) h
        | none => .error ()
      else if List.isPrefixOf "hum".toList (lowerList k) then
        match pyFloat? v with
        | some y => labeledFold ps t (some y)
        | none => .error ()
      else labeledFold ps t h) := by
  have hmem : ':' ∈ k ++ ':' :: v := by simp
  conv_lhs => rw [labeledFold]
  rw [if_pos hmem, takeWhile_until_sep hk, dropWhile_until_sep hk]
  simp only [List.tail_cons]
  rw [pyStrip_eq_self hknw, pyStrip_eq_self hvnw]

theorem comma_not_mem_token {k v : List Char} (hk : tokenOk k) (hv : tokenOk v) :
    ',' ∉ k ++ ':' :: v := by
  intro hmem
  rcases List.mem_append.mp hmem with h1 | h1
  · exact hk.1 h1
  · rcases List.mem_cons.mp h1 with h2 | h2
    · exact absurd h2 (by decide)
    · exact hv.1 h2

theorem splitOnChar_two_tokens {a b : List Char}
    (ha : ',' ∉ a) (hb : ',' ∉ b) :
    splitOnChar ',' (a ++ ',' :: b) = [a, b] := by
  rw [splitOnChar_append ha, splitOnChar_eq_single hb]

/-- Claim C5: for every labeled line `TEMP:<x>,HUM:<y>` — keys in any
letter case (any key whose lower-casing has prefix `temp` resp. `hum`),
fields in either order, spaces anywhere (the filter hypothesis fixes the
space-free form of the line) — `decode` returns `Sample(x, y)`, provided
both values convert. -/
theorem decode_labeled_lines (line kt vt kh vh : List Char) (x y : PyFloat)
    (hkt : tokenOk kt) (hvt : tokenOk vt) (hkh : tokenOk kh) (hvh : tokenOk vh)
    (htk : List.isPrefixOf "temp".toList (lowerList kt) = true)
    (hhk : List.isPrefixOf "hum".toList (lowerList kh) = true)
    (hx : pyFloat? vt = some x) (hy : pyFloat? vh = some y)
    (hshape : jsonShape line = false) (hguard : labeledGuard line = true)
    (hfilter :
      line.filter (fun c => c ≠ ' ') = kt ++ ':' :: (vt ++ ',' :: (kh ++ ':' :: vh)) ∨
      line.filter (fun c => c ≠ ' ') = kh ++ ':' :: (vh ++ ',' :: (kt ++ ':' :: vt))) :
    decode line = some ⟨x, y⟩ := by
  have hbody : decodeBody line
      = labeledFold (splitOnChar ',' (line.filter fun c => c ≠ ' ')) none none := by
    simp [decodeBody, hshape, hguard]
  have hnotc1 : ',' ∉ kt ++ ':' :: vt := comma_not_mem_token hkt hvt
  have hnotc2 : ',' ∉ kh ++ ':' :: vh := comma_not_mem_token hkh hvh
  have hfold : labeledFold (splitOnChar ',' (line.filter fun c => c ≠ ' ')) none none
      = .ok (some x, some y) := by
    rcases hfilter with hf | hf
    · rw [hf, show kt ++ ':' :: (vt ++ ',' :: (kh ++ ':' :: vh))
          = (kt ++ ':' :: vt) ++ ',' :: (kh ++ ':' :: vh) by simp,
        splitOnChar_two_tokens hnotc1 hnotc2,
        labeledFold_cons_eval kt vt _ _ _ hkt.2.1 hkt.2.2 hvt.2.2,
        if_pos htk, hx]
      show labeledFold [kh ++ ':' :: vh] (some x) none = _
      rw [labeledFold_cons_eval kh vh _ _ _ hkh.2.1 hkh.2.2 hvh.2.2,
        if_neg (by rw [isPrefixOf_hum_not_temp hhk]; simp), if_pos hhk, hy]
      rfl
    · rw [hf, show kh ++ ':' :: (vh ++ ',' :: (kt ++ ':' :: vt))
          = (kh ++ ':' :: vh) ++ ',' :: (kt ++ ':' :: vt) by simp,
        splitOnChar_two_tokens hnotc2 hnotc1,
        labeledFold_cons_eval kh vh _ _ _ hkh.2.1 hkh.2.2 hvh.2.2,
        if_neg (by rw [isPrefixOf_hum_not_temp hhk]; simp), if_pos hhk, hy]
      show labeledFold [kt ++ ':' :: vt] none (some y) = _
      rw [labeledFold_cons_eval kt vt _ _ _ hkt.2.1 hkt.2.2 hvt.2.2,
        if_pos htk, hx]
      rfl
  unfold decode
  rw [hbody, hfold]

/-- Claim C5 witness: `Temp: 28.42 , HUM:61.1` and `hum:61.1,TEMP:28.42`
both decode to the same sample. -/
theorem decode_labeled_lines_witness :
    decode "Temp: 28.42 , HUM:61.1".toList
      = some ⟨.fin (mkRat 2842 100), .fin (mkRat 611 10)⟩ ∧
    decode "hum:61.1,TEMP:28.42".toList
      = some ⟨.fin (mkRat 2842 100), .fin (mkRat 611 10)⟩ :=
  ⟨decode_labeled_lines "Temp: 28.42 , HUM:61.1".toList
      "Temp".toList "28.42".toList "HUM".toList "61.1".toList _ _
      (by decide) (by decide) (by decide) (by decide)
      (by decide) (by decide) (by decide) (by decide)
      (by decide) (by decide) (Or.inl (by decide)),
   decode_labeled_lines "hum:61.1,TEMP:28.42".toList
      "TEMP".toList "28.42".toList "hum".toList "61.1".toList _ _
      (by decide) (by decide) (by decide) (by decide)
      (by decide) (by decide) (by decide) (by decide)
      (by decide) (by decide) (Or.inr (by decide))⟩

/-- Claim C10 (implicit): in the labeled branch, a single `temp*`/`hum*`
token whose value fails `float` conversion makes the whole line decode to
`none` — the conversion error aborts the remaining tokens — even though
the other field (here the temperature, appearing first) had already
resolved successfully. -/
theorem labeled_bad_value_aborts_line (line kt vt kh vh : List Char) (x : PyFloat)
    (hkt : tokenOk kt) (hvt : tokenOk vt) (hkh : tokenOk kh) (hvh : tokenOk vh)
    (htk : List.isPrefixOf "temp".toList (lowerList kt) = true)
    (hhk : List.isPrefixOf "hum".toList (lowerList kh) = true)
    (hx : pyFloat? vt = some x) (hy : pyFloat? vh = none)
    (hshape : jsonShape line = false) (hguard : labeledGuard line = true)
    (hfilter :
      line.filter (fun c => c ≠ ' ') = kt ++ ':' :: (vt ++ ',' :: (kh ++ ':' :: vh))) :
    decodeBody line = .error () ∧ decode line = none := by
  have hbody : decodeBody line
      = labeledFold (splitOnChar ',' (line.filter fun c => c ≠ ' ')) none none := by
    simp [decodeBody, hshape, hguard]
  have hnotc1 : ',' ∉ kt ++ ':' :: vt := comma_not_mem_token hkt hvt
  have hnotc2 : ',' ∉ kh ++ ':' :: vh := comma_not_mem_token hkh hvh
  have herr : decodeBody line = .error () := by
    rw [hbody, hfilter, show kt ++ ':' :: (vt ++ ',' :: (kh ++ ':' :: vh))
        = (kt ++ ':' :: vt) ++ ',' :: (kh ++ ':' :: vh) by simp,
      splitOnChar_two_tokens hnotc1 hnotc2,
      labeledFold_cons_eval kt vt _ _ _ hkt.2.1 hkt.2.2 hvt.2.2,
      if_pos htk, hx]
    show labeledFold [kh ++ ':' :: vh] (some x) none = _
    rw [labeledFold_cons_eval kh vh _ _ _ hkh.2.1 hkh.2.2 hvh.2.2,
      if_neg (by rw [isPrefixOf_hum_not_temp hhk]; simp), if_pos hhk, hy]
  refine ⟨herr, ?_⟩
  unfold decode
  rw [herr]

/-- Claim C10 witness: in `TEMP:25,HUM:abc` the temperature resolves but
the humidity conversion fails, and the whole line decodes to `none`. -/
theorem labeled_bad_value_aborts_line_witness :
    decodeBody "TEMP:25,HUM:abc".toList = .error () ∧
    decode "TEMP:25,HUM:abc".toList = none :=
  labeled_bad_value_aborts_line "TEMP:25,HUM:abc".toList
    "TEMP".toList "25".toList "HUM".toList "abc".toList (.fin 25)
    (by decide) (by decide) (by decide) (by decide)
    (by decide) (by decide) (by decide) (by decide)
    (by decide) (by decide) (by decide)

/-- Claim C6: a line that matches neither the structured-object shape nor
the labeled-line guard is treated as comma-separated values: with fewer
than two fields the decoder yields `none`; with at least two fields whose
first two both convert it yields `Sample(first, second)` (fields beyond
index 1 ignored); if either of the first two fields fails to convert it
yields `none`. -/
theorem decode_csv_lines (line : List Char)
    (hshape : jsonShape line = false) (hguard : labeledGuard line = false) :
    ((splitOnChar ',' line).length < 2 → decode line = none) ∧
    (∀ x y, 2 ≤ (splitOnChar ',' line).length →
      pyFloat? ((splitOnChar ',' line).getD 0 []) = some x →
      pyFloat? ((splitOnChar ',' line).getD 1 []) = some y →
      decode line = some ⟨x, y⟩) ∧
    (2 ≤ (splitOnChar ',' line).length →
      (pyFloat? ((splitOnChar ',' line).getD 0 []) = none ∨
        pyFloat? ((splitOnChar ',' line).getD 1 []) = none) →
      decode line = none) := by
  refine ⟨?_, ?_, ?_⟩
  · intro hlen
    simp [decode, decodeBody, hshape, hguard, Nat.not_le.mpr hlen]
  · intro x y hlen hx hy
    simp only [List.getD, List.get?_eq_getElem?] at hx hy
    simp [decode, decodeBody, hshape, hguard, hlen, hx, hy]
    rfl
  · intro hlen hbad
    rcases hbad with hb | hb
    · simp only [List.getD, List.get?_eq_getElem?] at hb
      simp [decode, decodeBody, hshape, hguard, hlen, hb]
      rfl
    · simp only [List.getD, List.get?_eq_getElem?] at hb
      rcases hx : pyFloat? ((splitOnChar ',' line)[0]?.getD []) with _ | x
      · simp [decode, decodeBody, hshape, hguard, hlen, hx]
        rfl
      · simp [decode, decodeBody, hshape, hguard, hlen, hx, hb]
        rfl

/-- Claim C6 witness: `28.42,61.1` decodes to a sample, a one-field line
and a bad first field decode to `none`. -/
theorem decode_csv_lines_witness :
    decode "28.42,61.1".toList = some ⟨.fin (mkRat 2842 100), .fin (mkRat 611 10)⟩ ∧
    decode "garbage".toList = none ∧
    decode "x,1".toList = none :=
  ⟨(decode_csv_lines "28.42,61.1".toList (by decide) (by decide)).2.1
      (.fin (mkRat 2842 100)) (.fin (mkRat 611 10)) (by decide) (by decide) (by decide),
   (decode_csv_lines "garbage".toList (by decide) (by decide)).1 (by decide),
   (decode_csv_lines "x,1".toList (by decide) (by decide)).2.2 (by decide)
     (Or.inl (by decide))⟩

/-- Claim C4 counterexample: the structured-object branch looks up the
exact, case-sensitive keys `temp` and `hum` only — `humidity` is not
accepted and upper-case keys are not matched, although the claim says the
fields are found case-insensitively under `temp` and `hum`/`humidity`.
Both counterexample objects carry numeric values 1 and 2, yet decode to
`none`; the exact-key sibling decodes to a sample. -/
theorem decode_json_keys_cex :
    decode "\x7b\"temp\":1,\"humidity\":2\x7d".toList = none ∧
    decode "\x7b\"TEMP\":1,\"HUM\":2\x7d".toList = none ∧
    decode "\x7b\"temp\":1,\"hum\":2\x7d".toList = some ⟨.fin 1, .fin 2⟩ := by
  decide

/-- Claim C4 (amended): for every line of structured-object shape that
parses as a flat object, the decoder extracts exactly the keys `temp` and
`hum` (case-sensitive, no `humidity` alias, last duplicate wins); it
returns a sample when both lookups `float`-convert, and `none` when a
lookup is missing or fails to convert (the raised error is swallowed). -/
theorem decode_json_exact_keys (line : List Char) (d : List (List Char × JVal))
    (hshape : jsonShape line = true) (hp : json_loads line = some d) :
    decode line =
      (match pyFloatOfJVal (dictGet d "temp".toList),
             pyFloatOfJVal (dictGet d "hum".toList) with
       | .ok t, .ok h => some ⟨t, h⟩
       | _, _ => none) := by
  have hb : decodeBody line = (do
      let t ← pyFloatOfJVal (dictGet d "temp".toList)
      let h ← pyFloatOfJVal (dictGet d "hum".toList)
      Except.ok (some t, some h)) := by
    simp [decodeBody, hshape, hp]
  unfold decode
  rw [hb]
  rcases h1 : pyFloatOfJVal (dictGet d "temp".toList) with e1 | t <;>
    rcases h2 : pyFloatOfJVal (dictGet d "hum".toList) with e2 | h <;>
      rfl

/-- Claim C4 (amended) witness: a concrete flat object with both exact
keys present. -/
theorem decode_json_exact_keys_witness :
    jsonShape "\x7b\"temp\":28.42,\"hum\":61.1\x7d".toList = true ∧
    json_loads "\x7b\"temp\":28.42,\"hum\":61.1\x7d".toList
      = some [("temp".toList, JVal.num (.fin (mkRat 2842 100))),
              ("hum".toList, JVal.num (.fin (mkRat 611 10)))] ∧
    decode "\x7b\"temp\":28.42,\"hum\":61.1\x7d".toList =
      (match pyFloatOfJVal (dictGet [("temp".toList, JVal.num (.fin (mkRat 2842 100))),
               ("hum".toList, JVal.num (.fin (mkRat 611 10)))] "temp".toList),
             pyFloatOfJVal (dictGet [("temp".toList, JVal.num (.fin (mkRat 2842 100))),
               ("hum".toList, JVal.num (.fin (mkRat 611 10)))] "hum".toList) with
       | .ok t, .ok h => some ⟨t, h⟩
       | _, _ => none) :=
  ⟨by decide, by decide,
   decode_json_exact_keys "\x7b\"temp\":28.42,\"hum\":61.1\x7d".toList
     [("temp".toList, JVal.num (.fin (mkRat 2842 100))),
      ("hum".toList, JVal.num (.fin (mkRat 611 10)))] (by decide) (by decide)⟩

end Dashboard



